import Mathlib

/-!
Verification of the Jira link plugin core (`jira-link.ts`) and its
`JiraLinkPlugin` adapter (`jira-link-plugin.ts`): ticket extraction from
pull-request branch names, markdown link formatting, and the per-commit
annotation pass `addJiraLinksToCommits`.
-/

set_option maxHeartbeats 1000000

namespace JiraLink

/-- ASCII letter test: the character class `[A-Z]` under the `i` flag of
the default pattern (case-insensitive ASCII letters; in a non-unicode
JavaScript regex, case folding does not cross the ASCII boundary). -/
def isLetterCh (c : Char) : Bool :=
  ('A' ≤ c && c ≤ 'Z') || ('a' ≤ c && c ≤ 'z')

/-- The `\d` character class (ASCII digits). -/
def isDigitCh (c : Char) : Bool :=
  '0' ≤ c && c ≤ '9'

/-- Model of JavaScript `String.prototype.toUpperCase`, applied
characterwise (faithful on the ASCII range used by ticket identifiers). -/
def strUpper (s : String) : String :=
  String.mk (s.toList.map Char.toUpper)

/-- Boolean infix test on character lists: `hasInfix pat hay` holds when
`pat` occurs contiguously inside `hay`. -/
def hasInfix (p : List Char) : List Char → Bool
  | [] => p.isEmpty
  | c :: rest => p.isPrefixOf (c :: rest) || hasInfix p rest

/-- `sIncludes s pat` models the JavaScript call `s.includes(pat)`. -/
def sIncludes (s pat : String) : Bool :=
  hasInfix pat.toList s.toList

/-- One attempt of the default pattern `/([A-Z]{2,10}-\d+)/i` at a fixed
start position with a fixed letter count `k`: exactly `k` letters, then a
dash, then one or more digits (`\d+` taken greedily). Returns the matched
text, which for this pattern is also its first captured group. -/
def tryTicketLen (cs : List Char) (k : Nat) : Option String :=
  let letters := cs.take k
  if letters.length = k && letters.all isLetterCh then
    match cs.drop k with
    | '-' :: rest =>
      let digits := rest.takeWhile isDigitCh
      if digits.isEmpty then none
      else some (String.mk (letters ++ '-' :: digits))
    | _ => none
  else none

/-- The default pattern attempted at one start position. The greedy
quantifier `{2,10}` tries the longest letter run first and backtracks down
to two letters, exactly as the JavaScript regex engine does. (At any one
start position at most one letter count can succeed, because a shorter
run would require the following character to be both a letter and a
dash.) -/
def matchTicketAt (cs : List Char) : Option String :=
  tryTicketLen cs 10 <|> tryTicketLen cs 9 <|> tryTicketLen cs 8 <|>
  tryTicketLen cs 7 <|> tryTicketLen cs 6 <|> tryTicketLen cs 5 <|>
  tryTicketLen cs 4 <|> tryTicketLen cs 3 <|> tryTicketLen cs 2

/-- Model of `branchName.match(/([A-Z]{2,10}-\d+)/i)` restricted to its
first captured group: the JavaScript engine scans start positions left to
right and reports the leftmost match. -/
def findTicket : List Char → Option String
  | [] => none
  | c :: rest =>
    match matchTicketAt (c :: rest) with
    | some m => some m
    | none => findTicket rest

/-- The default matching rule `/([A-Z]{2,10}-\d+)/i` of `jira-link.ts`,
embedded as the function from an input string to the first captured group
of its first match (`none` when there is no match). -/
def defaultTicketPattern (s : String) : Option String :=
  findTicket s.toList

/-- Embedding of `extractJiraTicket` (jira-link.ts):
`const match = branchName.match(ticketPattern);`
`return match ? match[1].toUpperCase() : null;`.
A matching rule is embedded as the function sending the input to the
first captured group of its first match (`none` for no match). -/
def extractJiraTicket (branchName : String)
    (ticketPattern : String → Option String) : Option String :=
  match ticketPattern branchName with
  | some g => some (strUpper g)
  | none => none

/-- The two recognized link placements of `JiraLinkOptions.linkStyle`. -/
inductive LinkStyle where
  | inline
  | newline
  deriving DecidableEq

/-- Embedding of `generateJiraLink` (jira-link.ts). -/
def generateJiraLink (ticketId : String) (jiraBaseUrl : String) : String :=
  jiraBaseUrl ++ "/browse/" ++ ticketId

/-- Embedding of `formatJiraLink` (jira-link.ts). -/
def formatJiraLink (ticketId : String) (jiraBaseUrl : String)
    (linkStyle : LinkStyle) : String :=
  let link := generateJiraLink ticketId jiraBaseUrl
  match linkStyle with
  | LinkStyle.newline => "\n  [" ++ ticketId ++ "](" ++ link ++ ")"
  | LinkStyle.inline => " ([" ++ ticketId ++ "](" ++ link ++ "))"

/-- The pull request reference attached to a commit. In JavaScript the
`headBranchName` field may be a string or absent; an absent field is
`none`. -/
structure PullRequest where
  number : Nat := 0
  headBranchName : Option String := none
  deriving DecidableEq

/-- The fields of release-please's `ConventionalCommit` records that the
plugin reads or writes (`message`, `bareMessage`, `pullRequest`, `sha`),
plus representative read-only fields (`type`, `scope`, `breaking`). -/
structure ConventionalCommit where
  sha : String := ""
  message : String := ""
  bareMessage : String := ""
  type : String := ""
  scope : Option String := none
  breaking : Bool := false
  pullRequest : Option PullRequest := none
  deriving DecidableEq

/-- Embedding of `JiraLinkOptions`: every field is optional. A caller
ticket pattern is embedded as its first-captured-group function. -/
structure JiraLinkOptions where
  jiraBaseUrl : Option String := none
  ticketPattern : Option (String → Option String) := none
  linkStyle : Option LinkStyle := none
  debug : Option Bool := none

/-- JavaScript `a || b` on an optional string `a`: the default is taken
when the field is absent or the empty string (both are falsy). -/
def jsOrStr (o : Option String) (dflt : String) : String :=
  match o with
  | some s => if s.isEmpty then dflt else s
  | none => dflt

/-- The default Jira base URL of `addJiraLinksToCommits`. -/
def defaultJiraBaseUrl : String := "https://yourcompany.atlassian.net"

/-- The commit transformation performed by one iteration of the loop body
of `addJiraLinksToCommits`, after the option defaults are resolved.
The JavaScript truthiness tests are explicit: an absent or empty branch
name is skipped, and an absent or empty extracted ticket is skipped. -/
def annotateOne (rule : String → Option String) (jiraBaseUrl : String)
    (linkStyle : LinkStyle) (commit : ConventionalCommit) : ConventionalCommit :=
  match commit.pullRequest with
  | some pr =>
    match pr.headBranchName with
    | some branchName =>
      if branchName.isEmpty then commit
      else
        match extractJiraTicket branchName rule with
        | some ticketId =>
          if ticketId.isEmpty then commit
          else
            let jiraLink := formatJiraLink ticketId jiraBaseUrl linkStyle
            let msg := if sIncludes commit.message ticketId then commit.message
                       else commit.message ++ jiraLink
            let bare := if sIncludes commit.bareMessage ticketId then commit.bareMessage
                        else commit.bareMessage ++ jiraLink
            { commit with message := msg, bareMessage := bare }
        | none => commit
    | none => commit
  | none => commit

/-- Diagnostic line printed for a commit whose pull-request guard fails
(`commit.sha.substring(0, 7)` in the source). -/
def noPrLogMsg (commit : ConventionalCommit) : String :=
  "Commit " ++ String.mk (commit.sha.toList.take 7) ++
    " has no associated pull request"

/-- One iteration of the loop body of `addJiraLinksToCommits` with its
`console.log` effects reified: the first component is the commit after
the iteration, the second the list of diagnostic lines it printed. -/
def annotateOneLog (rule : String → Option String) (jiraBaseUrl : String)
    (linkStyle : LinkStyle) (debug : Bool) (commit : ConventionalCommit) :
    ConventionalCommit × List String :=
  match commit.pullRequest with
  | some pr =>
    match pr.headBranchName with
    | some branchName =>
      if branchName.isEmpty then
        (commit, if debug then [noPrLogMsg commit] else [])
      else
        match extractJiraTicket branchName rule with
        | some ticketId =>
          if ticketId.isEmpty then
            (commit,
             if debug then ["No Jira ticket found in branch: " ++ branchName] else [])
          else
            let foundLog :=
              if debug then
                ["Found Jira ticket " ++ ticketId ++ " in branch: " ++ branchName]
              else []
            let jiraLink := formatJiraLink ticketId jiraBaseUrl linkStyle
            let msg := if sIncludes commit.message ticketId then commit.message
                       else commit.message ++ jiraLink
            let addedLog :=
              if debug && !(sIncludes commit.message ticketId) then
                ["Added Jira link to commit message"]
              else []
            let bare := if sIncludes commit.bareMessage ticketId then commit.bareMessage
                        else commit.bareMessage ++ jiraLink
            ({ commit with message := msg, bareMessage := bare }, foundLog ++ addedLog)
        | none =>
          (commit,
           if debug then ["No Jira ticket found in branch: " ++ branchName] else [])
    | none => (commit, if debug then [noPrLogMsg commit] else [])
  | none => (commit, if debug then [noPrLogMsg commit] else [])

/-- Embedding of `addJiraLinksToCommits` (jira-link.ts). The in-place
mutation of the JavaScript loop is rendered functionally: the first
component of the result is the final state of the commit array, the
second collects the `console.log` lines. The option defaults are resolved
exactly as in the source; `||` on the base URL treats the empty string as
absent. -/
def addJiraLinksToCommits (commits : List ConventionalCommit)
    (options : JiraLinkOptions) : List ConventionalCommit × List String :=
  let jiraBaseUrl := jsOrStr options.jiraBaseUrl defaultJiraBaseUrl
  let rule := options.ticketPattern.getD defaultTicketPattern
  let linkStyle := options.linkStyle.getD LinkStyle.inline
  let debug := options.debug.getD false
  let headerLog :=
    if debug then
      ["Processing " ++ toString commits.length ++ " commits for Jira links"]
    else []
  let processed := commits.map (annotateOneLog rule jiraBaseUrl linkStyle debug)
  (processed.map Prod.fst, headerLog ++ (processed.map Prod.snd).flatten)

/-- Embedding of `extractJiraTicket` for an arbitrary successfully
constructed rule, keeping the JavaScript failure mode of
`match ? match[1].toUpperCase() : null`. The rule yields `none` for no
match, `some none` for a match whose first captured group did not
participate — then `match[1]` is `undefined` and `.toUpperCase()` raises
a TypeError — and `some (some g)` for a match with first captured group
`g`. -/
def extractJiraTicketE (branchName : String)
    (ticketPattern : String → Option (Option String)) : Except String (Option String) :=
  match ticketPattern branchName with
  | none => Except.ok none
  | some none =>
    Except.error "TypeError: Cannot read properties of undefined (reading toUpperCase)"
  | some (some g) => Except.ok (some (strUpper g))

/-- The loop body of `addJiraLinksToCommits` over a fallible rule:
`Except.error` is a raised JavaScript exception. The exception can only
arise from `extractJiraTicket`, which runs before any field of the commit
is touched, so a failing iteration leaves its commit unchanged. -/
def annotateOneE (rule : String → Option (Option String)) (jiraBaseUrl : String)
    (linkStyle : LinkStyle) (commit : ConventionalCommit) :
    Except String ConventionalCommit :=
  match commit.pullRequest with
  | some pr =>
    match pr.headBranchName with
    | some branchName =>
      if branchName.isEmpty then Except.ok commit
      else
        match extractJiraTicketE branchName rule with
        | Except.error e => Except.error e
        | Except.ok none => Except.ok commit
        | Except.ok (some ticketId) =>
          if ticketId.isEmpty then Except.ok commit
          else
            let jiraLink := formatJiraLink ticketId jiraBaseUrl linkStyle
            let msg := if sIncludes commit.message ticketId then commit.message
                       else commit.message ++ jiraLink
            let bare := if sIncludes commit.bareMessage ticketId then commit.bareMessage
                        else commit.bareMessage ++ jiraLink
            Except.ok { commit with message := msg, bareMessage := bare }
    | none => Except.ok commit
  | none => Except.ok commit

/-- The `for` loop of `addJiraLinksToCommits` over a fallible rule,
tracking the state of the commit array: the first component is the array
content when the loop finishes or when an exception escapes it (the
JavaScript loop mutates the array in place, so commits processed before a
throwing iteration keep their annotations), the second component is the
escaped exception, if any. -/
def addJiraLinksRun (rule : String → Option (Option String)) (jiraBaseUrl : String)
    (linkStyle : LinkStyle) : List ConventionalCommit →
    List ConventionalCommit × Option String
  | [] => ([], none)
  | c :: rest =>
    match annotateOneE rule jiraBaseUrl linkStyle c with
    | Except.error e => (c :: rest, some e)
    | Except.ok c' =>
      let res := addJiraLinksRun rule jiraBaseUrl linkStyle rest
      (c' :: res.1, res.2)

/-- Embedding of `JiraLinkPlugin.processCommits` (jira-link-plugin.ts):
`try { return addJiraLinksToCommits(commits, this.jiraOptions); }`
`catch (error) { this.logger.error(...); return commits; }`.
In the catch branch the identifier `commits` denotes the same array the
loop has been mutating in place, so the value returned there is the array
state at the moment of the exception — the first component of
`addJiraLinksRun` — not a pristine copy of the input. -/
def processCommits (rule : String → Option (Option String)) (jiraBaseUrl : String)
    (linkStyle : LinkStyle) (commits : List ConventionalCommit) :
    List ConventionalCommit :=
  match addJiraLinksRun rule jiraBaseUrl linkStyle commits with
  | (result, none) => result
  | (arrayState, some _) => arrayState

/-! ### Helper lemmas about substring search and the annotation step -/

theorem hasInfix_iff (p l : List Char) : hasInfix p l = true ↔ p <:+: l := by
  induction l with
  | nil => simp [hasInfix, List.isEmpty_iff, List.infix_nil]
  | cons c rest ih =>
    simp [hasInfix, List.isPrefixOf_iff_prefix, ih, List.infix_cons_iff]

theorem sIncludes_of_infix {t m : String} (h : t.toList <:+: m.toList) :
    sIncludes m t = true :=
  (hasInfix_iff _ _).mpr h

theorem infix_of_sIncludes {t m : String} (h : sIncludes m t = true) :
    t.toList <:+: m.toList :=
  (hasInfix_iff _ _).mp h

theorem sIncludes_append_right (a b t : String) (h : sIncludes b t = true) :
    sIncludes (a ++ b) t = true := by
  apply sIncludes_of_infix
  obtain ⟨u, v, huv⟩ := infix_of_sIncludes h
  refine ⟨a.toList ++ u, v, ?_⟩
  simp only [String.toList] at huv ⊢
  rw [String.data_append, ← huv]
  simp [List.append_assoc]

theorem sIncludes_formatJiraLink (t u : String) (s : LinkStyle) :
    sIncludes (formatJiraLink t u s) t = true := by
  apply sIncludes_of_infix
  cases s with
  | inline =>
    refine ⟨(" ([").toList, ("](" ++ generateJiraLink t u ++ "))").toList, ?_⟩
    simp [formatJiraLink, String.toList, String.data_append, List.append_assoc]
  | newline =>
    refine ⟨("\n  [").toList, ("](" ++ generateJiraLink t u ++ ")").toList, ?_⟩
    simp [formatJiraLink, String.toList, String.data_append, List.append_assoc]

theorem fst_annotateOneLog (rule : String → Option String) (u : String)
    (s : LinkStyle) (d : Bool) (c : ConventionalCommit) :
    (annotateOneLog rule u s d c).1 = annotateOne rule u s c := by
  rcases hpr : c.pullRequest with _ | pr
  · simp [annotateOneLog, annotateOne, hpr]
  · rcases hbn : pr.headBranchName with _ | bn
    · simp [annotateOneLog, annotateOne, hpr, hbn]
    · by_cases hem : bn.isEmpty
      · simp [annotateOneLog, annotateOne, hpr, hbn, hem]
      · rcases hex : extractJiraTicket bn rule with _ | tid
        · simp [annotateOneLog, annotateOne, hpr, hbn, hem, hex]
        · by_cases htid : tid.isEmpty <;>
            simp [annotateOneLog, annotateOne, hpr, hbn, hem, hex, htid]

theorem fst_addJiraLinksToCommits (commits : List ConventionalCommit)
    (options : JiraLinkOptions) :
    (addJiraLinksToCommits commits options).1 =
      commits.map (annotateOne (options.ticketPattern.getD defaultTicketPattern)
        (jsOrStr options.jiraBaseUrl defaultJiraBaseUrl)
        (options.linkStyle.getD LinkStyle.inline)) := by
  unfold addJiraLinksToCommits
  simp only [List.map_map]
  exact List.map_congr_left fun c _ => fst_annotateOneLog _ _ _ _ c

theorem annotateOne_found (rule : String → Option String) (u : String)
    (s : LinkStyle) (c : ConventionalCommit) (pr : PullRequest) (bn tid : String)
    (hpr : c.pullRequest = some pr) (hbn : pr.headBranchName = some bn)
    (hem : bn.isEmpty = false) (hex : extractJiraTicket bn rule = some tid)
    (htid : tid.isEmpty = false) :
    annotateOne rule u s c = { c with
      message := if sIncludes c.message tid then c.message
                 else c.message ++ formatJiraLink tid u s,
      bareMessage := if sIncludes c.bareMessage tid then c.bareMessage
                     else c.bareMessage ++ formatJiraLink tid u s } := by
  simp [annotateOne, hpr, hbn, hex, hem, htid]

theorem annotateOne_spec (rule : String → Option String) (u : String)
    (s : LinkStyle) (c : ConventionalCommit) :
    annotateOne rule u s c = c ∨
    ∃ tid, tid.isEmpty = false ∧
      annotateOne rule u s c = { c with
        message := if sIncludes c.message tid then c.message
                   else c.message ++ formatJiraLink tid u s,
        bareMessage := if sIncludes c.bareMessage tid then c.bareMessage
                       else c.bareMessage ++ formatJiraLink tid u s } := by
  rcases hpr : c.pullRequest with _ | pr
  · exact Or.inl (by simp [annotateOne, hpr])
  · rcases hbn : pr.headBranchName with _ | bn
    · exact Or.inl (by simp [annotateOne, hpr, hbn])
    · by_cases hem : bn.isEmpty
      · exact Or.inl (by simp [annotateOne, hpr, hbn, hem])
      · rcases hex : extractJiraTicket bn rule with _ | tid
        · exact Or.inl (by simp [annotateOne, hpr, hbn, hem, hex])
        · by_cases htid : tid.isEmpty
          · exact Or.inl (by simp [annotateOne, hpr, hbn, hem, hex, htid])
          · refine Or.inr ⟨tid, by simpa using htid, ?_⟩
            rw [annotateOne_found rule u s c pr bn tid hpr hbn
              (by simpa using hem) hex (by simpa using htid), hpr]

theorem annotateOne_idem (rule : String → Option String) (u : String)
    (s : LinkStyle) (c : ConventionalCommit) :
    annotateOne rule u s (annotateOne rule u s c) = annotateOne rule u s c := by
  rcases hpr : c.pullRequest with _ | pr
  · have h : annotateOne rule u s c = c := by simp [annotateOne, hpr]
    rw [h]; exact h
  · rcases hbn : pr.headBranchName with _ | bn
    · have h : annotateOne rule u s c = c := by simp [annotateOne, hpr, hbn]
      rw [h]; exact h
    · by_cases hem : bn.isEmpty
      · have h : annotateOne rule u s c = c := by simp [annotateOne, hpr, hbn, hem]
        rw [h]; exact h
      · rcases hex : extractJiraTicket bn rule with _ | tid
        · have h : annotateOne rule u s c = c := by
            simp [annotateOne, hpr, hbn, hem, hex]
          rw [h]; exact h
        · by_cases htid : tid.isEmpty
          · have h : annotateOne rule u s c = c := by
              simp [annotateOne, hpr, hbn, hem, hex, htid]
            rw [h]; exact h
          · have hem' : bn.isEmpty = false := by simpa using hem
            have htid' : tid.isEmpty = false := by simpa using htid
            have h1 := annotateOne_found rule u s c pr bn tid hpr hbn hem' hex htid'
            set msg' := if sIncludes c.message tid then c.message
                        else c.message ++ formatJiraLink tid u s with hmsg
            set bare' := if sIncludes c.bareMessage tid then c.bareMessage
                         else c.bareMessage ++ formatJiraLink tid u s with hbare
            have h2 := annotateOne_found rule u s
              { c with message := msg', bareMessage := bare' } pr bn tid
              (by simpa using hpr) hbn hem' hex htid'
            have hm : sIncludes msg' tid = true := by
              rw [hmsg]
              by_cases hi : sIncludes c.message tid
              · simp [hi]
              · simp only [hi, Bool.false_eq_true, if_false]
                exact sIncludes_append_right _ _ _ (sIncludes_formatJiraLink tid u s)
            have hb : sIncludes bare' tid = true := by
              rw [hbare]
              by_cases hi : sIncludes c.bareMessage tid
              · simp [hi]
              · simp only [hi, Bool.false_eq_true, if_false]
                exact sIncludes_append_right _ _ _ (sIncludes_formatJiraLink tid u s)
            rw [h1, h2]
            simp [hm, hb]

/-! ### Example data used by the witness theorems -/

/-- A commit carrying the branch of the documented end-to-end example. -/
def exCommit : ConventionalCommit :=
  { sha := "abc1234def", message := "feat: add feature",
    bareMessage := "feat: add feature", type := "feat", scope := none,
    breaking := false,
    pullRequest := some { number := 42, headBranchName := some "PLAYG-1008-test-feature" } }

/-- The end-to-end example commit after annotation with default options. -/
def exAnnotated : ConventionalCommit :=
  { exCommit with
    message :=
      "feat: add feature ([PLAYG-1008](https://yourcompany.atlassian.net/browse/PLAYG-1008))",
    bareMessage :=
      "feat: add feature ([PLAYG-1008](https://yourcompany.atlassian.net/browse/PLAYG-1008))" }

/-- A pull request whose branch carries a ticket reference. -/
def mixedPr : PullRequest :=
  { number := 7, headBranchName := some "QUIKS-674-ui-analytics" }

/-- A commit whose `bareMessage` already mentions its ticket identifier
while its `message` does not. -/
def mixedCommit : ConventionalCommit :=
  { sha := "fedcba9876", message := "fix: adjust flow",
    bareMessage := "fix: adjust flow (see QUIKS-674)", type := "fix",
    scope := none, breaking := false, pullRequest := some mixedPr }

/-- A pull request whose branch name is the empty string. -/
def emptyBranchPr : PullRequest :=
  { number := 9, headBranchName := some "" }

/-- A commit whose associated pull request has an empty branch name. -/
def emptyBranchCommit : ConventionalCommit :=
  { sha := "0011223344", message := "chore: tidy", bareMessage := "chore: tidy",
    type := "chore", scope := none, breaking := false,
    pullRequest := some emptyBranchPr }

/-- The default matching rule seen as a fallible rule: its single capture
group always participates when the pattern matches. -/
def defaultTicketPatternE (s : String) : Option (Option String) :=
  (defaultTicketPattern s).map some

/-- Fallible rule modelling the successfully constructed pattern `(x)?`:
it matches every input (an empty match) while its first capture group
never participates, so `match[1]` is `undefined`. -/
def optionalGroupRule : String → Option (Option String) :=
  fun _ => some none

/-- Fallible rule modelling the successfully constructed caller pattern
`([A-Z]+)?-(\d+)`: on `AB-1` it matches with first captured group `AB`;
on `-5` it matches (the optional group is skipped) with `match[1]`
undefined, so the extraction step raises a TypeError. -/
def partialBatchRule : String → Option (Option String) :=
  fun b =>
    if b = "AB-1" then some (some "AB")
    else if b = "-5" then some none
    else none

/-- First commit of the partial-annotation batch: its branch matches with
a participating group, so it gets annotated before the failure. -/
def cexCommitA : ConventionalCommit :=
  { sha := "a1b2c3d4e5", message := "feat: first change",
    bareMessage := "feat: first change", type := "feat", scope := none,
    breaking := false,
    pullRequest := some { number := 1, headBranchName := some "AB-1" } }

/-- Second commit of the partial-annotation batch: extraction on its
branch raises, aborting the loop. -/
def cexCommitB : ConventionalCommit :=
  { sha := "f6a7b8c9d0", message := "fix: second change",
    bareMessage := "fix: second change", type := "fix", scope := none,
    breaking := false,
    pullRequest := some { number := 2, headBranchName := some "-5" } }

/-! ### Claim theorems -/

/-- C1: for every branch-name string and every matching rule, the ticket
extractor returns the first captured group of the rule's match converted
to upper case when the rule matches, and returns absent when it does not
match; with the default case-insensitive rule, extracting from
`playg-1008-foo` yields `PLAYG-1008`. -/
theorem extractJiraTicket_spec (b : String) (rule : String → Option String) :
    (∀ g, rule b = some g → extractJiraTicket b rule = some (strUpper g)) ∧
    (rule b = none → extractJiraTicket b rule = none) ∧
    extractJiraTicket "playg-1008-foo" defaultTicketPattern = some "PLAYG-1008" := by
  refine ⟨fun g hg => ?_, fun hn => ?_, by decide⟩
  · simp [extractJiraTicket, hg]
  · simp [extractJiraTicket, hn]

/-- Witness for C1: the default rule matches `quiks-674-ui` with first
captured group `quiks-674`, and extraction upper-cases it. -/
theorem extractJiraTicket_spec_witness :
    defaultTicketPattern "quiks-674-ui" = some "quiks-674" ∧
    extractJiraTicket "quiks-674-ui" defaultTicketPattern =
      some (strUpper "quiks-674") :=
  ⟨by decide,
   (extractJiraTicket_spec "quiks-674-ui" defaultTicketPattern).1 "quiks-674" (by decide)⟩

/-- C2: annotation is idempotent — for every commit collection and
options, applying `addJiraLinksToCommits` twice produces exactly the
commit list (hence the `message` and `bareMessage` of every commit) of a
single application; no duplicate link is appended and no appended link is
removed or rewritten. -/
theorem annotate_idempotent (commits : List ConventionalCommit)
    (opts : JiraLinkOptions) :
    (addJiraLinksToCommits (addJiraLinksToCommits commits opts).1 opts).1 =
      (addJiraLinksToCommits commits opts).1 := by
  rw [fst_addJiraLinksToCommits, fst_addJiraLinksToCommits, List.map_map]
  exact List.map_congr_left fun c _ => annotateOne_idem _ _ _ c

/-- C3: evaluation of the extractor with the default rule at the two
boundary inputs of the claim. `P-123` yields absent as claimed, but
`VERYLONGPROJECT-123` does not: the default pattern is unanchored, so the
last ten letters of the fifteen-letter project code followed by the
digits match, and extraction yields `ONGPROJECT-123` instead of absent,
contradicting the claim and the repository's own documentation. -/
theorem extract_boundary_eval :
    extractJiraTicket "P-123" defaultTicketPattern = none ∧
    extractJiraTicket "VERYLONGPROJECT-123" defaultTicketPattern =
      some "ONGPROJECT-123" :=
  ⟨by decide, by decide⟩

/-- C5: the formatted link fragment is bit-exact for both styles, for
every identifier and base URL, and the concrete `QUIKS-674` inline case
renders exactly as claimed. -/
theorem formatJiraLink_spec (ticketId jiraBaseUrl : String) :
    formatJiraLink ticketId jiraBaseUrl LinkStyle.inline =
      " ([" ++ ticketId ++ "](" ++ jiraBaseUrl ++ "/browse/" ++ ticketId ++ "))" ∧
    formatJiraLink ticketId jiraBaseUrl LinkStyle.newline =
      "\n  [" ++ ticketId ++ "](" ++ jiraBaseUrl ++ "/browse/" ++ ticketId ++ ")" ∧
    formatJiraLink "QUIKS-674" "https://example.atlassian.net" LinkStyle.inline =
      " ([QUIKS-674](https://example.atlassian.net/browse/QUIKS-674))" := by
  refine ⟨?_, ?_, by decide⟩
  · simp [formatJiraLink, generateJiraLink, String.append_assoc]
  · simp [formatJiraLink, generateJiraLink, String.append_assoc]

/-- C9: the debug/verbose option has no effect on the commit output of
`addJiraLinksToCommits` — running with `debug := true` and with
`debug := false` produces identical commit lists (the flag only controls
the diagnostic log). -/
theorem debug_no_output_effect (commits : List ConventionalCommit)
    (opts : JiraLinkOptions) :
    (addJiraLinksToCommits commits { opts with debug := some true }).1 =
      (addJiraLinksToCommits commits { opts with debug := some false }).1 := by
  rw [fst_addJiraLinksToCommits, fst_addJiraLinksToCommits]

/-- C6: `addJiraLinksToCommits` preserves the collection's length and
order and every field of every commit except `message` and `bareMessage`,
which are either unchanged or extended by exactly one appended link
fragment; a commit with no associated pull request passes through
unchanged, and (in the fallible loop model) raises no error. -/
theorem annotate_frame (commits : List ConventionalCommit)
    (opts : JiraLinkOptions) (i : Nat) (c c' : ConventionalCommit)
    (hc : commits[i]? = some c)
    (hc' : ((addJiraLinksToCommits commits opts).1)[i]? = some c') :
    (addJiraLinksToCommits commits opts).1.length = commits.length ∧
    c'.sha = c.sha ∧ c'.type = c.type ∧ c'.scope = c.scope ∧
    c'.breaking = c.breaking ∧ c'.pullRequest = c.pullRequest ∧
    (c'.message = c.message ∨ ∃ tid, c'.message = c.message ++
      formatJiraLink tid (jsOrStr opts.jiraBaseUrl defaultJiraBaseUrl)
        (opts.linkStyle.getD LinkStyle.inline)) ∧
    (c'.bareMessage = c.bareMessage ∨ ∃ tid, c'.bareMessage = c.bareMessage ++
      formatJiraLink tid (jsOrStr opts.jiraBaseUrl defaultJiraBaseUrl)
        (opts.linkStyle.getD LinkStyle.inline)) ∧
    (c.pullRequest = none → c' = c ∧
      ∀ ruleE u s, annotateOneE ruleE u s c = Except.ok c) := by
  rw [fst_addJiraLinksToCommits] at hc'
  rw [List.getElem?_map, hc] at hc'
  simp only [Option.map_some'] at hc'
  obtain rfl : c' = annotateOne (opts.ticketPattern.getD defaultTicketPattern)
      (jsOrStr opts.jiraBaseUrl defaultJiraBaseUrl)
      (opts.linkStyle.getD LinkStyle.inline) c := by
    exact (Option.some_inj.mp hc').symm
  refine ⟨by rw [fst_addJiraLinksToCommits]; simp, ?_⟩
  have hnopr : c.pullRequest = none →
      annotateOne (opts.ticketPattern.getD defaultTicketPattern)
        (jsOrStr opts.jiraBaseUrl defaultJiraBaseUrl)
        (opts.linkStyle.getD LinkStyle.inline) c = c ∧
      ∀ ruleE u s, annotateOneE ruleE u s c = Except.ok c := by
    intro h
    exact ⟨by simp [annotateOne, h], fun ruleE u s => by simp [annotateOneE, h]⟩
  rcases annotateOne_spec (opts.ticketPattern.getD defaultTicketPattern)
      (jsOrStr opts.jiraBaseUrl defaultJiraBaseUrl)
      (opts.linkStyle.getD LinkStyle.inline) c with h | ⟨tid, htid, h⟩
  · rw [h]
    exact ⟨rfl, rfl, rfl, rfl, rfl, Or.inl rfl, Or.inl rfl,
      fun hn => ⟨rfl, (hnopr hn).2⟩⟩
  · rw [h]
    refine ⟨rfl, rfl, rfl, rfl, rfl, ?_, ?_, ?_⟩
    · by_cases hi : sIncludes c.message tid
      · exact Or.inl (by simp [hi])
      · exact Or.inr ⟨tid, by simp [hi]⟩
    · by_cases hi : sIncludes c.bareMessage tid
      · exact Or.inl (by simp [hi])
      · exact Or.inr ⟨tid, by simp [hi]⟩
    · intro hn
      have := (hnopr hn).1
      rw [h] at this
      exact ⟨this, (hnopr hn).2⟩

/-- Witness for C6: the documented end-to-end example commit is annotated
in place — same `sha`, `type`, `scope`, `breaking` and `pullRequest`, and
both message fields extended by one inline link fragment. -/
theorem annotate_frame_witness :
    ([exCommit][0]? = some exCommit) ∧
    (((addJiraLinksToCommits [exCommit] {}).1)[0]? = some exAnnotated) ∧
    ((addJiraLinksToCommits [exCommit] {}).1.length = [exCommit].length ∧
      exAnnotated.sha = exCommit.sha ∧ exAnnotated.type = exCommit.type ∧
      exAnnotated.scope = exCommit.scope ∧
      exAnnotated.breaking = exCommit.breaking ∧
      exAnnotated.pullRequest = exCommit.pullRequest ∧
      (exAnnotated.message = exCommit.message ∨ ∃ tid, exAnnotated.message =
        exCommit.message ++ formatJiraLink tid defaultJiraBaseUrl LinkStyle.inline) ∧
      (exAnnotated.bareMessage = exCommit.bareMessage ∨ ∃ tid,
        exAnnotated.bareMessage =
          exCommit.bareMessage ++ formatJiraLink tid defaultJiraBaseUrl LinkStyle.inline) ∧
      (exCommit.pullRequest = none → exAnnotated = exCommit ∧
        ∀ ruleE u s, annotateOneE ruleE u s exCommit = Except.ok exCommit)) :=
  ⟨by decide, by decide,
   annotate_frame [exCommit] {} 0 exCommit exAnnotated (by decide) (by decide)⟩

/-- C7: the duplicate checks on the two message fields are independent —
when the extracted identifier already occurs in `bareMessage` but not in
`message`, only `message` is extended (appending the formatted link and
preserving its content) and `bareMessage` is left unchanged. -/
theorem independent_field_update (opts : JiraLinkOptions)
    (c : ConventionalCommit) (pr : PullRequest) (bn tid : String)
    (hpr : c.pullRequest = some pr) (hbn : pr.headBranchName = some bn)
    (hem : bn.isEmpty = false)
    (hex : extractJiraTicket bn (opts.ticketPattern.getD defaultTicketPattern) = some tid)
    (htid : tid.isEmpty = false)
    (hmsg : sIncludes c.message tid = false)
    (hbare : sIncludes c.bareMessage tid = true) :
    (addJiraLinksToCommits [c] opts).1 =
      [{ c with message := c.message ++ formatJiraLink tid
                             (jsOrStr opts.jiraBaseUrl defaultJiraBaseUrl)
                             (opts.linkStyle.getD LinkStyle.inline) }] := by
  rw [fst_addJiraLinksToCommits]
  simp only [List.map_cons, List.map_nil]
  rw [annotateOne_found _ _ _ c pr bn tid hpr hbn hem hex htid]
  simp [hmsg, hbare]

/-- Witness for C7: `mixedCommit` mentions `QUIKS-674` in its
`bareMessage` only; annotation extends only `message`. -/
theorem independent_field_update_witness :
    (mixedCommit.pullRequest = some mixedPr) ∧
    (mixedPr.headBranchName = some "QUIKS-674-ui-analytics") ∧
    (("QUIKS-674-ui-analytics" : String).isEmpty = false) ∧
    (extractJiraTicket "QUIKS-674-ui-analytics" defaultTicketPattern =
      some "QUIKS-674") ∧
    (("QUIKS-674" : String).isEmpty = false) ∧
    (sIncludes mixedCommit.message "QUIKS-674" = false) ∧
    (sIncludes mixedCommit.bareMessage "QUIKS-674" = true) ∧
    ((addJiraLinksToCommits [mixedCommit] {}).1 =
      [{ mixedCommit with message := mixedCommit.message ++
                            formatJiraLink "QUIKS-674" defaultJiraBaseUrl LinkStyle.inline }]) :=
  ⟨rfl, rfl, by decide, by decide, by decide, by decide, by decide,
   independent_field_update {} mixedCommit mixedPr "QUIKS-674-ui-analytics"
     "QUIKS-674" rfl rfl (by decide) (by decide) (by decide) (by decide) (by decide)⟩

/-- C10: a commit whose associated pull request carries an empty branch
name is treated exactly like one with no branch name at all — for every
options value (hence for every matching rule) the commit passes through
with `message` and `bareMessage` unchanged, because the presence test is
a truthiness check under which the empty string is absent. -/
theorem empty_branch_skipped (opts : JiraLinkOptions)
    (c : ConventionalCommit) (pr : PullRequest)
    (hpr : c.pullRequest = some pr) (hbn : pr.headBranchName = some "") :
    (addJiraLinksToCommits [c] opts).1 = [c] ∧
    (∀ c₂ pr₂, c₂.pullRequest = some pr₂ → pr₂.headBranchName = none →
      (addJiraLinksToCommits [c₂] opts).1 = [c₂]) := by
  have he : ("" : String).isEmpty = true := by decide
  constructor
  · rw [fst_addJiraLinksToCommits]
    simp [annotateOne, hpr, hbn, he]
  · intro c₂ pr₂ h1 h2
    rw [fst_addJiraLinksToCommits]
    simp [annotateOne, h1, h2]

/-- Witness for C10: the empty-branch commit passes through unchanged. -/
theorem empty_branch_skipped_witness :
    (emptyBranchCommit.pullRequest = some emptyBranchPr) ∧
    (emptyBranchPr.headBranchName = some "") ∧
    ((addJiraLinksToCommits [emptyBranchCommit] {}).1 = [emptyBranchCommit] ∧
      (∀ c₂ pr₂, c₂.pullRequest = some pr₂ → pr₂.headBranchName = none →
        (addJiraLinksToCommits [c₂] ({} : JiraLinkOptions)).1 = [c₂])) :=
  ⟨rfl, rfl, empty_branch_skipped {} emptyBranchCommit emptyBranchPr rfl rfl⟩

/-- C8 counterexample: the claim that extraction never raises for any
branch name and any successfully constructed rule is false. The rule
`optionalGroupRule` models the well-formed pattern `(x)?`, whose
construction succeeds, yet extraction on `playg-1008-foo` evaluates
`match[1].toUpperCase()` with `match[1]` undefined and raises a
TypeError. -/
theorem extract_can_raise_cex :
    extractJiraTicketE "playg-1008-foo" optionalGroupRule =
      Except.error
        "TypeError: Cannot read properties of undefined (reading toUpperCase)" :=
  rfl

/-- C8 (amended): extraction never raises for the no-match case, and
never raises when the first captured group of the match participates; the
only way extraction itself raises is a successfully constructed rule
whose match leaves the first captured group undefined, a failure mode
that is not detected at rule construction. -/
theorem extract_no_raise_amended (b : String)
    (rule : String → Option (Option String)) :
    (rule b = none → extractJiraTicketE b rule = Except.ok none) ∧
    (∀ g, rule b = some (some g) →
      extractJiraTicketE b rule = Except.ok (some (strUpper g))) ∧
    (∀ e, extractJiraTicketE b rule = Except.error e → rule b = some none) := by
  refine ⟨fun h => by simp [extractJiraTicketE, h],
    fun g h => by simp [extractJiraTicketE, h], fun e h => ?_⟩
  rcases hr : rule b with _ | og
  · simp [extractJiraTicketE, hr] at h
  · rcases og with _ | g
    · rfl
    · simp [extractJiraTicketE, hr] at h

/-- Witness for the amended C8: with the default rule lifted to the
fallible world, a non-matching branch extracts to `ok none` and a
matching branch to the upper-cased group, with no error in either case. -/
theorem extract_no_raise_amended_witness :
    (defaultTicketPatternE "fix-typo" = none ∧
      extractJiraTicketE "fix-typo" defaultTicketPatternE = Except.ok none) ∧
    (defaultTicketPatternE "playg-1008-foo" = some (some "playg-1008") ∧
      extractJiraTicketE "playg-1008-foo" defaultTicketPatternE =
        Except.ok (some (strUpper "playg-1008"))) :=
  ⟨⟨by decide,
    (extract_no_raise_amended "fix-typo" defaultTicketPatternE).1 (by decide)⟩,
   ⟨by decide,
    (extract_no_raise_amended "playg-1008-foo" defaultTicketPatternE).2.1
      "playg-1008" (by decide)⟩⟩

/-- C4: evaluation of the adapter at a failing batch. With the
successfully constructed caller pattern modelled by `partialBatchRule`,
the loop annotates the first commit in place, then raises on the second;
the catch in `processCommits` returns the same in-place-mutated array, so
the adapter's output is partially annotated and differs from the original
unmodified collection — contradicting the all-or-nothing fallback stated
by the claim and by the source comment `Return unmodified commits if
there is an error`. -/
theorem processCommits_partial_on_error :
    (addJiraLinksRun partialBatchRule defaultJiraBaseUrl LinkStyle.inline
      [cexCommitA, cexCommitB]).2.isSome = true ∧
    processCommits partialBatchRule defaultJiraBaseUrl LinkStyle.inline
      [cexCommitA, cexCommitB] =
      [{ cexCommitA with
          message :=
            "feat: first change ([AB](https://yourcompany.atlassian.net/browse/AB))",
          bareMessage :=
            "feat: first change ([AB](https://yourcompany.atlassian.net/browse/AB))" },
        cexCommitB] ∧
    processCommits partialBatchRule defaultJiraBaseUrl LinkStyle.inline
      [cexCommitA, cexCommitB] ≠ [cexCommitA, cexCommitB] :=
  ⟨by decide, by decide, by decide⟩

end JiraLink
